import Mathlib

/-!
# go-htmx: product table server

A shallow embedding of `main.go`: the `Product` record, the two templates
(`tmpl`, `tableTmpl`) given by their source text, the set-up performed by
`main`, and the two HTTP handlers.

The program is glue over three Go standard-library packages, so the embedding
contains a small executable model of the parts of them that the program
reaches:

* `text/template/parse`: lexing and parsing of template text (text, field
  actions, `printf` calls, `range`, `template`, `define`);
* `text/template`: template name spaces (`New`, `Parse`, `AddParseTree`,
  `Lookup`) and execution (`Execute`, `ExecuteTemplate`);
* `fmt`: the verbs `%v` (on errors and strings) and `%.Nf` (on float64);
* `net/http`: the status/body part of a `ResponseWriter`.

Template text outside the modelled subset is rejected by the parser model
(`none`), never silently accepted. Go strings are modelled as Lean strings:
the program only passes them on and concatenates them. What `fetchProducts`
obtains from the network is a parameter of the handlers.
-/

set_option autoImplicit false

namespace GoHtmx

/-! ## Data model -/

/-- A Go `float64`. `finite neg mant exp` denotes `(-1)^neg * mant * 2^exp`;
every finite float64 has this form (with `mant < 2^53`, `-1074 ≤ exp ≤ 971`).
Negative zero is `finite true 0 _`. -/
inductive Float64 where
  | finite (neg : Bool) (mant : Nat) (exp : Int)
  | inf (neg : Bool)
  | nan
  deriving DecidableEq, Repr

/-- The struct `Product`. -/
structure Product where
  Title : String
  Category : String
  Price : Float64
  Thumbnail : String
  Description : String
  deriving DecidableEq, Repr

/-- A non-nil Go `error`, observed through its `Error()` string. -/
structure GoError where
  msg : String
  deriving DecidableEq, Repr

/-! ## fmt -/

/-- Quotient `num / den` rounded to the nearest integer, ties to even
(strconv rounds the exact binary value, `shouldRoundUp`). -/
def roundHalfEven (num den : Nat) : Nat :=
  let q := num / den
  let r := num % den
  if den < 2 * r ∨ (2 * r = den ∧ q % 2 = 1) then q + 1 else q

/-- The magnitude `mant * 2^exp` scaled by `10^prec` and rounded to an integer. -/
def scaledRound (mant : Nat) (exp : Int) (prec : Nat) : Nat :=
  match exp with
  | Int.ofNat e => mant * 2 ^ e * 10 ^ prec
  | Int.negSucc e => roundHalfEven (mant * 10 ^ prec) (2 ^ (e + 1))

/-- The `prec` fraction digits of the scaled integer `n`, most significant first. -/
def fracDigits (n : Nat) : Nat → List Char
  | 0 => []
  | k + 1 => Nat.digitChar (n / 10 ^ k % 10) :: fracDigits n k

/-- The verb `%.<prec>f` applied to a float64 (`strconv.FormatFloat(v, 'f', prec, 64)`
as post-processed by `fmt.fmtFloat` without flags). -/
def fmtFloatF (prec : Nat) : Float64 → String
  | .nan => "NaN"
  | .inf false => "+Inf"
  | .inf true => "-Inf"
  | .finite neg mant exp =>
    let n := scaledRound mant exp prec
    (if neg then "-" else "") ++ Nat.repr (n / 10 ^ prec) ++
      (if prec = 0 then "" else "." ++ String.mk (fracDigits n prec))

/-- Operands of the formatting functions that the program passes. -/
inductive FmtArg where
  | string (s : String)
  | float64 (f : Float64)
  | error (e : GoError)
  deriving DecidableEq, Repr

/-- Read a decimal number at the head of the input. -/
def readNat : List Char → Nat → Nat × List Char
  | c :: cs, acc => if c.isDigit then readNat cs (acc * 10 + (c.toNat - 48)) else (acc, c :: cs)
  | [], acc => (acc, [])

/-- The formatting loop of `fmt.Sprintf` for the verbs `%%`, `%v` (strings and
errors) and `%.<digits>f` (float64). Any other verb, operand type or operand
count is outside the model: `none`. -/
def doPrintf : Nat → List Char → List FmtArg → Option (List Char)
  | 0, _, _ => none
  | _ + 1, [], [] => some []
  | _ + 1, [], _ :: _ => none
  | fuel + 1, '%' :: '%' :: rest, args => (doPrintf fuel rest args).map ('%' :: ·)
  | fuel + 1, '%' :: 'v' :: rest, FmtArg.string s :: args =>
    (doPrintf fuel rest args).map (s.data ++ ·)
  | fuel + 1, '%' :: 'v' :: rest, FmtArg.error e :: args =>
    (doPrintf fuel rest args).map (e.msg.data ++ ·)
  | fuel + 1, '%' :: '.' :: d :: rest, FmtArg.float64 f :: args =>
    if d.isDigit then
      match readNat (d :: rest) 0 with
      | (prec, 'f' :: rest2) => (doPrintf fuel rest2 args).map ((fmtFloatF prec f).data ++ ·)
      | _ => none
    else none
  | _ + 1, '%' :: _, _ => none
  | fuel + 1, c :: rest, args => (doPrintf fuel rest args).map (c :: ·)

/-- The function `fmt.Sprintf` on the modelled subset. -/
def Sprintf (format : String) (args : List FmtArg) : Option String :=
  (doPrintf (format.length + 1) format.data args).map String.mk

/-! ## text/template/parse -/

/-- Operands of a command: `.`, `.Field`, an identifier (function name) and a
quoted string (`DotNode`, `FieldNode`, `IdentifierNode`, `StringNode`). Keywords
are lexed as identifiers and recognised by the parser. -/
inductive Arg where
  | dot
  | field (name : String)
  | ident (name : String)
  | str (s : String)
  deriving DecidableEq, Repr

/-- Lexical items: literal text, or the operands between one pair of delimiters. -/
inductive Item where
  | text (s : List Char)
  | action (toks : List Arg)
  deriving DecidableEq, Repr

/-- The lexer's `isSpace` (blanks inside an action). -/
def isSpace (c : Char) : Bool :=
  c == ' ' || c == '\t' || c == '\r' || c == '\n'

/-- The lexer's `isAlphaNumeric`, on ASCII. -/
def isAlphaNumeric (c : Char) : Bool :=
  c == '_' || c.isAlpha || c.isDigit

/-- What may follow an operand: a blank or the closing delimiter. -/
def atTerminator : List Char → Bool
  | [] => true
  | c :: _ => isSpace c || c == '}'

/-- Lex the inside of an action up to the closing delimiter; returns the
operands and the input after the delimiter. Trim markers, comments, pipes,
variables, numbers, parentheses and escapes in strings are outside the model. -/
def lexInsideAction : Nat → List Char → List Arg → Option (List Arg × List Char)
  | 0, _, _ => none
  | _ + 1, [], _ => none
  | _ + 1, '}' :: '}' :: rest, acc => some (acc.reverse, rest)
  | fuel + 1, '"' :: rest, acc =>
    match rest.span (fun c => c != '"') with
    | (s, '"' :: rest2) =>
      if s.any (fun c => c == '\\' || c == '\n') || !atTerminator rest2 then none
      else lexInsideAction fuel rest2 (Arg.str (String.mk s) :: acc)
    | _ => none
  | fuel + 1, '.' :: rest, acc =>
    match rest.span isAlphaNumeric with
    | (name, rest2) =>
      if !atTerminator rest2 then none
      else lexInsideAction fuel rest2
        ((if name.isEmpty then Arg.dot else Arg.field (String.mk name)) :: acc)
  | fuel + 1, c :: rest, acc =>
    if isSpace c then lexInsideAction fuel rest acc
    else if isAlphaNumeric c && !c.isDigit then
      match (c :: rest).span isAlphaNumeric with
      | (name, rest2) =>
        if !atTerminator rest2 then none
        else lexInsideAction fuel rest2 (Arg.ident (String.mk name) :: acc)
    else none

/-- Emit pending text, if any (the lexer emits no empty text item). -/
def emitText (pending : List Char) (items : List Item) : List Item :=
  if pending.isEmpty then items else Item.text pending.reverse :: items

/-- The lexer: split template text into text items and actions. -/
def lexItems : Nat → List Char → List Char → List Item → Option (List Item)
  | 0, _, _, _ => none
  | _ + 1, [], pending, items => some (emitText pending items).reverse
  | fuel + 1, '{' :: '{' :: rest, pending, items =>
    match lexInsideAction fuel rest [] with
    | none => none
    | some (toks, rest2) => lexItems fuel rest2 [] (Item.action toks :: emitText pending items)
  | fuel + 1, c :: rest, pending, items => lexItems fuel rest (c :: pending) items

/-- Lex a template text. -/
def lex (text : String) : Option (List Item) :=
  lexItems (text.length + 1) text.data [] []

/-- Nodes of a parse tree (`TextNode`, `ActionNode`, `RangeNode` without else,
`TemplateNode`). A pipeline is one command, given by its operands. -/
inductive Node where
  | text (s : String)
  | action (pipe : List Arg)
  | range (pipe : List Arg) (list : List Node)
  | template (name : String) (pipe : List Arg)
  deriving Repr

/-- A parse tree: `parse.Tree` with its `Name` and the nodes of its `Root`. -/
structure Tree where
  Name : String
  Root : List Node
  deriving Repr

/-- White space as `unicode.IsSpace` defines it. -/
def isUnicodeSpace (c : Char) : Bool :=
  let n := c.toNat
  (9 ≤ n && n ≤ 13) || n == 0x20 || n == 0x85 || n == 0xA0 || n == 0x1680 ||
  (0x2000 ≤ n && n ≤ 0x200a) || n == 0x2028 || n == 0x2029 || n == 0x202f ||
  n == 0x205f || n == 0x3000

/-- The function `parse.IsEmptyTree` on one node: only a text node of white space is empty. -/
def isEmptyNode : Node → Bool
  | .text s => s.data.all isUnicodeSpace
  | _ => false

/-- The function `parse.IsEmptyTree` applied to a root list. -/
def IsEmptyTree (root : List Node) : Bool :=
  root.all isEmptyNode

/-- Look a name up in an association list of named trees. -/
def lookupTree (name : String) : List (String × Tree) → Option Tree
  | [] => none
  | (k, v) :: rest => if k = name then some v else lookupTree name rest

/-- Bind a name in an association list, replacing an earlier binding in place. -/
def insertTree (name : String) (tree : Tree) : List (String × Tree) → List (String × Tree)
  | [] => [(name, tree)]
  | (k, v) :: rest => if k = name then (name, tree) :: rest else (k, v) :: insertTree name tree rest

/-- The method `Tree.add`: enter a tree in the tree set. An earlier empty tree
of the same name is replaced, an empty tree does not replace a non-empty one,
and two non-empty trees of one name are an error (`none`). -/
def Tree.add (t : Tree) (treeSet : List (String × Tree)) : Option (List (String × Tree)) :=
  match lookupTree t.Name treeSet with
  | none => some (insertTree t.Name t treeSet)
  | some old =>
    if IsEmptyTree old.Root then some (insertTree t.Name t treeSet)
    else if !IsEmptyTree t.Root then none
    else some treeSet

/-- A pipeline of the modelled subset: `.`, `.Field`, or `printf` applied to
string, dot and field operands. -/
def checkPipeline : List Arg → Option (List Arg)
  | [Arg.dot] => some [Arg.dot]
  | [Arg.field f] => some [Arg.field f]
  | Arg.ident fn :: args =>
    if fn = "printf" ∧ args.all (fun a => match a with | Arg.ident _ => false | _ => true)
    then some (Arg.ident fn :: args) else none
  | _ => none

/-- State of the parser while it reads a list of items. -/
structure ParseResult where
  nodes : List Node
  rest : List Item
  treeSet : List (String × Tree)
  deriving Repr

/-- The parser. With `top = true` this is the loop of `Tree.parse`: it reads
to the end of input, accepts `define` clauses and rejects a stray `end`. With
`top = false` it is `itemList`: it reads up to the matching `end`. -/
def parseItems : Nat → Bool → List Item → List Node → List (String × Tree) → Option ParseResult
  | 0, _, _, _, _ => none
  | _ + 1, top, [], acc, ts => if top then some ⟨acc.reverse, [], ts⟩ else none
  | fuel + 1, top, Item.text s :: rest, acc, ts =>
    parseItems fuel top rest (Node.text (String.mk s) :: acc) ts
  | fuel + 1, top, Item.action toks :: rest, acc, ts =>
    match toks with
    | [Arg.ident "end"] => if top then none else some ⟨acc.reverse, rest, ts⟩
    | [Arg.ident "define", Arg.str name] =>
      if !top then none else
      match parseItems fuel false rest [] ts with
      | none => none
      | some body =>
        match Tree.add ⟨name, body.nodes⟩ body.treeSet with
        | none => none
        | some ts2 => parseItems fuel top body.rest acc ts2
    | Arg.ident "range" :: pipe =>
      match checkPipeline pipe with
      | none => none
      | some p =>
        match parseItems fuel false rest [] ts with
        | none => none
        | some body => parseItems fuel top body.rest (Node.range p body.nodes :: acc) body.treeSet
    | Arg.ident "template" :: Arg.str name :: pipe =>
      match checkPipeline pipe with
      | none => none
      | some p => parseItems fuel top rest (Node.template name p :: acc) ts
    | _ =>
      match checkPipeline toks with
      | none => none
      | some p => parseItems fuel top rest (Node.action p :: acc) ts

/-- The function `parse.Parse`: the tree set defined by a template text, the
tree of the template itself (named `name`) included. -/
def parseText (name : String) (text : String) : Option (List (String × Tree)) :=
  match lex text with
  | none => none
  | some items =>
    match parseItems (items.length + 1) true items [] [] with
    | none => none
    | some r => Tree.add ⟨name, r.nodes⟩ r.treeSet

/-! ## net/http: the response writer -/

/-- The observable part of an `http.ResponseWriter`: the status line once it
has been written, and the body bytes written so far. -/
structure ResponseWriter where
  status : Option Nat
  body : String
  deriving DecidableEq, Repr

/-- A fresh response: nothing written. -/
def ResponseWriter.new : ResponseWriter := ⟨none, ""⟩

/-- The method `WriteHeader`: fixes the status unless it is already written. -/
def ResponseWriter.WriteHeader (w : ResponseWriter) (code : Nat) : ResponseWriter :=
  match w.status with
  | none => { w with status := some code }
  | some _ => w

/-- The method `Write`: an implicit `WriteHeader(200)` if no header was written,
then the bytes are appended to the body. -/
def ResponseWriter.Write (w : ResponseWriter) (bytes : String) : ResponseWriter :=
  let w1 := w.WriteHeader 200
  { w1 with body := w1.body ++ bytes }

/-- The status the client receives: 200 when the handler wrote no header. -/
def ResponseWriter.code (w : ResponseWriter) : Nat :=
  w.status.getD 200

/-- The call `fmt.Fprintf(w, format, args...)`: one `Write` of the formatted text. -/
def Fprintf (w : ResponseWriter) (format : String) (args : List FmtArg) : ResponseWriter :=
  match Sprintf format args with
  | some s => w.Write s
  | none => w

/-! ## text/template: execution -/

/-- Values that flow through the templates: the data `[]Product`, its
elements, and the strings and floats of their fields. -/
inductive Value where
  | products (ps : List Product)
  | product (p : Product)
  | string (s : String)
  | float64 (f : Float64)
  deriving DecidableEq, Repr

/-- Outcome of executing (part of) a template: the writer after the writes
performed so far, and the error that stopped execution, if any. -/
abbrev ExecResult := ResponseWriter × Option String

/-- The method `evalField`: field selection on the receiver. -/
def evalField (dot : Value) (name : String) : Except String Value :=
  match dot with
  | .product p =>
    if name = "Title" then .ok (.string p.Title)
    else if name = "Category" then .ok (.string p.Category)
    else if name = "Price" then .ok (.float64 p.Price)
    else if name = "Thumbnail" then .ok (.string p.Thumbnail)
    else if name = "Description" then .ok (.string p.Description)
    else .error ("can't evaluate field " ++ name ++ " in type main.Product")
  | .products _ => .error ("can't evaluate field " ++ name ++ " in type []main.Product")
  | .string _ => .error ("can't evaluate field " ++ name ++ " in type string")
  | .float64 _ => .error ("can't evaluate field " ++ name ++ " in type float64")

/-- The method `evalArg` for the operands of a function call. -/
def evalArg (dot : Value) : Arg → Except String Value
  | .dot => .ok dot
  | .field name => evalField dot name
  | .str s => .ok (.string s)
  | .ident name => .error ("can't evaluate identifier " ++ name ++ " as an operand")

/-- Evaluate a list of operands left to right. -/
def evalArgs (dot : Value) : List Arg → Except String (List Value)
  | [] => .ok []
  | a :: rest =>
    match evalArg dot a with
    | .error e => .error e
    | .ok v =>
      match evalArgs dot rest with
      | .error e => .error e
      | .ok vs => .ok (v :: vs)

/-- Pass a template value to `fmt` (strings and floats are printable). -/
def toFmtArg : Value → Option FmtArg
  | .string s => some (.string s)
  | .float64 f => some (.float64 f)
  | _ => none

/-- Pass the operands of a call to `fmt`. -/
def toFmtArgs : List Value → Option (List FmtArg)
  | [] => some []
  | v :: rest =>
    match toFmtArg v, toFmtArgs rest with
    | some a, some as => some (a :: as)
    | _, _ => none

/-- The builtin `printf`, which is `fmt.Sprintf`: the first operand is the format. -/
def callPrintf : List Value → Except String Value
  | .string format :: args =>
    match toFmtArgs args with
    | none => .error "printf: operand outside the model"
    | some fargs =>
      match Sprintf format fargs with
      | none => .error "printf: verb outside the model"
      | some s => .ok (.string s)
  | _ => .error "wrong type for value; expected string"

/-- The method `evalPipeline` for a pipeline of one command. -/
def evalPipeline (dot : Value) : List Arg → Except String Value
  | [Arg.dot] => .ok dot
  | [Arg.field name] => evalField dot name
  | Arg.ident fn :: args =>
    if fn = "printf" then
      match evalArgs dot args with
      | .error e => .error e
      | .ok vs => callPrintf vs
    else .error ("function " ++ fn ++ " not defined")
  | _ => .error "pipeline outside the model"

/-- The method `printValue`: write the value of an action. Strings are written as they
are; nothing is escaped. -/
def printValue (w : ResponseWriter) : Value → ExecResult
  | .string s => (w.Write s, none)
  | _ => (w, some "printValue: value outside the model")

/-- The value of `maxExecDepth`. -/
def maxExecDepth : Nat := 100000

mutual
/-- The method `state.walk` on one node. `call` is the part of `walkTemplate`
that follows the node: it receives the name and the outcome of the pipeline. -/
def walk (call : String → Except String Value → ResponseWriter → ExecResult) (dot : Value) :
    Node → ResponseWriter → ExecResult
  | .text s, w => (w.Write s, none)
  | .action pipe, w =>
    match evalPipeline dot pipe with
    | .error e => (w, some e)
    | .ok v => printValue w v
  | .range pipe list, w =>
    match evalPipeline dot pipe with
    | .error e => (w, some e)
    | .ok (.products ps) =>
      ps.foldl (fun (r : ExecResult) p =>
        match r with
        | (w1, none) => walkList call (.product p) list w1
        | (w1, some e) => (w1, some e)) (w, none)
    | .ok _ => (w, some "range can't iterate over value")
  | .template name pipe, w => call name (evalPipeline dot pipe) w
/-- The method `state.walk` on a list node: the nodes in order, stopping at the first error. -/
def walkList (call : String → Except String Value → ResponseWriter → ExecResult) (dot : Value) :
    List Node → ResponseWriter → ExecResult
  | [], w => (w, none)
  | n :: rest, w =>
    match walk call dot n w with
    | (w1, none) => walkList call dot rest w1
    | (w1, some e) => (w1, some e)
end

/-- The method `walkTemplate` with `depth` more nested invocations allowed:
look the template up in the name space `common`, check the depth, take the
value of the pipeline as the new dot, and walk the tree of the template. -/
def execTemplate (common : List (String × Tree)) :
    Nat → String → Except String Value → ResponseWriter → ExecResult
  | 0, name, _, w =>
    match lookupTree name common with
    | none => (w, some ("template " ++ name ++ " not defined"))
    | some _ => (w, some "exceeded maximum template depth")
  | depth + 1, name, arg, w =>
    match lookupTree name common with
    | none => (w, some ("template " ++ name ++ " not defined"))
    | some tree =>
      match arg with
      | .error e => (w, some e)
      | .ok dot => walkList (execTemplate common depth) dot tree.Root w

/-! ## text/template: templates and name spaces -/

/-- A `*template.Template`: its name, its own parse tree (`nil` until defined)
and the name space `common.tmpl` it shares with its associated templates,
recorded as the tree bound to each name. -/
structure Template where
  name : String
  Tree : Option Tree
  common : List (String × GoHtmx.Tree)
  deriving Repr

/-- The function `template.New`: an undefined template in a fresh name space. -/
def New (name : String) : Template := ⟨name, none, []⟩

/-- The method `Template.New`: an undefined template associated with `t`. -/
def Template.New (t : Template) (name : String) : Template := ⟨name, none, t.common⟩

/-- The method `associate`: install the tree under `name` in the name space,
unless a template of that name exists and the new tree is empty. Returns
whether the binding was replaced. -/
def Template.associate (t : Template) (name : String) (tree : GoHtmx.Tree) :
    Bool × List (String × GoHtmx.Tree) :=
  match lookupTree name t.common with
  | some _ => if IsEmptyTree tree.Root then (false, t.common) else (true, insertTree name tree t.common)
  | none => (true, insertTree name tree t.common)

/-- The method `AddParseTree`. When `name` is not the name of `t` a new
template is created, defined, and returned: the result is the template called
`name`, not `t`. -/
def Template.AddParseTree (t : Template) (name : String) (tree : GoHtmx.Tree) : Template :=
  let nt := if name ≠ t.name then t.New name else t
  let r := t.associate name tree
  if r.1 || nt.Tree.isNone then { nt with Tree := some tree, common := r.2 }
  else { nt with common := r.2 }

/-- Add the trees of a parsed text to `t`, one `AddParseTree` each; the
name space grows while `t` stays the receiver. -/
def Template.addTrees (t : Template) : List (String × GoHtmx.Tree) → Template
  | [] => t
  | (name, tree) :: rest =>
    let nt := t.AddParseTree name tree
    let t1 : Template :=
      if name = t.name then nt else { t with common := nt.common }
    t1.addTrees rest

/-- The method `Parse`: parse the text and add every tree it defines to the
name space of `t`; returns `t`. A parse error is `none`. -/
def Template.Parse (t : Template) (text : String) : Option Template :=
  match parseText t.name text with
  | none => none
  | some trees => some (t.addTrees trees)

/-- The method `Lookup`: the associated template of that name, or nil. -/
def Template.Lookup (t : Template) (name : String) : Option Template :=
  match lookupTree name t.common with
  | none => none
  | some tree => some ⟨name, some tree, t.common⟩

/-- The function `template.Must`: pass the template on, panic (`none`) on an error. -/
def Must (r : Option Template) : Option Template := r

/-- The method `Execute`: run the template's own tree on the data. -/
def Template.Execute (t : Template) (w : ResponseWriter) (data : Value) : ExecResult :=
  match t.Tree with
  | none => (w, some (t.name ++ " is an incomplete or empty template"))
  | some tree => walkList (execTemplate t.common maxExecDepth) data tree.Root w

/-- The method `ExecuteTemplate`: look the name up, then `Execute`. -/
def Template.ExecuteTemplate (t : Template) (w : ResponseWriter) (name : String)
    (data : Value) : ExecResult :=
  match t.Lookup name with
  | none => (w, some ("template: no template " ++ name ++ " associated with template " ++ t.name))
  | some tm => tm.Execute w data

/-! ## main.go -/

/-- Text of the template `tmpl` (the raw string passed to `Parse`), line by line. -/
def tmplText : String :=
  "\n" ++
  "<!DOCTYPE html>\n" ++
  "<html lang=\"en\">\n" ++
  "<head>\n" ++
  "\t<meta charset=\"UTF-8\"/>\n" ++
  "\t<meta name=\"viewport\" content=\"width=device-width,initial-scale=1.0\"/>\n" ++
  "\t<title>Products</title>\n" ++
  "\t<script src=\"https://unpkg.com/htmx.org@1.9.6\"></script>\n" ++
  "\t<script src=\"https://cdn.tailwindcss.com\"></script>\n" ++
  "</head>\n" ++
  "<body class=\"bg-gray-100 min-h-screen p-4\">\n" ++
  "\t<div class=\"max-w-4xl mx-auto\">\n" ++
  "\t\t<h1 class=\"text-2xl font-bold mb-4\">Product List</h1>\n" ++
  "\t\t<button \n" ++
  "\t\t\thx-get=\"/products-table\" \n" ++
  "\t\t\thx-target=\"#products\" \n" ++
  "\t\t\thx-swap=\"outerHTML\"\n" ++
  "\t\t\tclass=\"mb-4 px-4 py-2 bg-blue-600 text-white rounded\"\n" ++
  "\t\t>\n" ++
  "\t\t\tReload Products\n" ++
  "\t\t</button>\n" ++
  "\t\t<div id=\"products\">\n" ++
  "\t\t\t\x7b\x7btemplate \"table\" .\x7d\x7d\n" ++
  "\t\t</div>\n" ++
  "\t</div>\n" ++
  "</body>\n" ++
  "</html>\n"

/-- Text of the template `tableTmpl` (the raw string passed to `Parse`), line by line. -/
def tableTmplText : String :=
  "\n" ++
  "\x7b\x7bdefine \"table\"\x7d\x7d\n" ++
  "\t<table class=\"table-auto w-full shadow rounded bg-white\">\n" ++
  "\t\t<thead>\n" ++
  "\t\t\t<tr>\n" ++
  "\t\t\t\t<th class=\"px-4 py-2\">Image</th>\n" ++
  "\t\t\t\t<th class=\"px-4 py-2\">Title</th>\n" ++
  "\t\t\t\t<th class=\"px-4 py-2\">Category</th>\n" ++
  "\t\t\t\t<th class=\"px-4 py-2\">Price</th>\n" ++
  "\t\t\t\t<th class=\"px-4 py-2\">Description</th>\n" ++
  "\t\t\t</tr>\n" ++
  "\t\t</thead>\n" ++
  "\t\t<tbody>\n" ++
  "\t\t\x7b\x7brange .\x7d\x7d\n" ++
  "\t\t\t<tr class=\"border-t\">\n" ++
  "\t\t\t\t<td class=\"px-4 py-2\">\n" ++
  "\t\t\t\t\t<img src=\"\x7b\x7b.Thumbnail\x7d\x7d\" class=\"w-16 h-16 object-contain\" alt=\"\x7b\x7b.Title\x7d\x7d\">\n" ++
  "\t\t\t\t</td>\n" ++
  "\t\t\t\t<td class=\"px-4 py-2 font-semibold\">\x7b\x7b.Title\x7d\x7d</td>\n" ++
  "\t\t\t\t<td class=\"px-4 py-2\">\x7b\x7b.Category\x7d\x7d</td>\n" ++
  "\t\t\t\t<td class=\"px-4 py-2\">$\x7b\x7bprintf \"%.2f\" .Price\x7d\x7d</td>\n" ++
  "\t\t\t\t<td class=\"px-4 py-2 text-sm\">\x7b\x7b.Description\x7d\x7d</td>\n" ++
  "\t\t\t</tr>\n" ++
  "\t\t\x7b\x7bend\x7d\x7d\n" ++
  "\t\t</tbody>\n" ++
  "\t</table>\n" ++
  "\x7b\x7bend\x7d\x7d\n"

/-- The package variable `tmpl`: `template.Must(template.New("main").Parse(...))`
(`none` would be a panic during initialisation). -/
def tmpl : Option Template := Must ((New "main").Parse tmplText)

/-- The package variable `tableTmpl`: `template.Must(template.New("table").Parse(...))`. -/
def tableTmpl : Option Template := Must ((New "table").Parse tableTmplText)

/-- The templates the handlers use once `main` has run its set-up. -/
structure Server where
  tmpl : Template
  tableTmpl : Template
  deriving Repr

/-- The set-up at the head of `main`: the local `tableTmpl` is the package
variable parsed again with the empty text, and the package variable `tmpl` is
overwritten with the result of `tmpl.AddParseTree("table", ...)`. A panic is
`none`. -/
def mainSetup : Option Server :=
  match tmpl, tableTmpl with
  | some tmpl0, some tableTmpl0 =>
    match (Must (some tableTmpl0)).bind (fun t => t.Parse "") with
    | none => none
    | some tableTmpl1 =>
      match tableTmpl1.Lookup "table" with
      | none => none
      | some found =>
        match found.Tree with
        | none => none
        | some tree =>
          match Must (some (tmpl0.AddParseTree "table" tree)) with
          | none => none
          | some tmpl1 => some ⟨tmpl1, tableTmpl1⟩
  | _, _ => none

/-- What `fetchProducts` returned: the slice and the error (`none` is nil). -/
abbrev FetchResult := List Product × Option GoError

/-- The handler registered for `/`. -/
def handleRoot (srv : Server) (fetched : FetchResult) (w : ResponseWriter) : ResponseWriter :=
  match fetched with
  | (_, some err) =>
    Fprintf (w.WriteHeader 500) "Error fetching products: %v" [FmtArg.error err]
  | (products, none) => (srv.tmpl.Execute w (Value.products products)).1

/-- The handler registered for `/products-table`. -/
def handleProductsTable (srv : Server) (fetched : FetchResult) (w : ResponseWriter) :
    ResponseWriter :=
  match fetched with
  | (_, some err) =>
    Fprintf (w.WriteHeader 500) "Error fetching products: %v" [FmtArg.error err]
  | (products, none) => (srv.tableTmpl.ExecuteTemplate w "table" (Value.products products)).1

/-! ## The parse trees of the two templates

The constants below are the text and nodes that the parser produces from
`tmplText` and `tableTmplText`; the theorems `parse_tmplText` and
`parse_tableTmplText` establish that. -/

/-- Text of `tmpl` before the action that invokes the template `table`. -/
def shellPre : String :=
  "\n" ++
  "<!DOCTYPE html>\n" ++
  "<html lang=\"en\">\n" ++
  "<head>\n" ++
  "\t<meta charset=\"UTF-8\"/>\n" ++
  "\t<meta name=\"viewport\" content=\"width=device-width,initial-scale=1.0\"/>\n" ++
  "\t<title>Products</title>\n" ++
  "\t<script src=\"https://unpkg.com/htmx.org@1.9.6\"></script>\n" ++
  "\t<script src=\"https://cdn.tailwindcss.com\"></script>\n" ++
  "</head>\n" ++
  "<body class=\"bg-gray-100 min-h-screen p-4\">\n" ++
  "\t<div class=\"max-w-4xl mx-auto\">\n" ++
  "\t\t<h1 class=\"text-2xl font-bold mb-4\">Product List</h1>\n" ++
  "\t\t<button \n" ++
  "\t\t\thx-get=\"/products-table\" \n" ++
  "\t\t\thx-target=\"#products\" \n" ++
  "\t\t\thx-swap=\"outerHTML\"\n" ++
  "\t\t\tclass=\"mb-4 px-4 py-2 bg-blue-600 text-white rounded\"\n" ++
  "\t\t>\n" ++
  "\t\t\tReload Products\n" ++
  "\t\t</button>\n" ++
  "\t\t<div id=\"products\">\n" ++
  "\t\t\t"

/-- Text of `tmpl` after the action that invokes the template `table`. -/
def shellPost : String :=
  "\n" ++
  "\t\t</div>\n" ++
  "\t</div>\n" ++
  "</body>\n" ++
  "</html>\n"

/-- Text of the template `table` before its `range` action. -/
def tableHead : String :=
  "\n" ++
  "\t<table class=\"table-auto w-full shadow rounded bg-white\">\n" ++
  "\t\t<thead>\n" ++
  "\t\t\t<tr>\n" ++
  "\t\t\t\t<th class=\"px-4 py-2\">Image</th>\n" ++
  "\t\t\t\t<th class=\"px-4 py-2\">Title</th>\n" ++
  "\t\t\t\t<th class=\"px-4 py-2\">Category</th>\n" ++
  "\t\t\t\t<th class=\"px-4 py-2\">Price</th>\n" ++
  "\t\t\t\t<th class=\"px-4 py-2\">Description</th>\n" ++
  "\t\t\t</tr>\n" ++
  "\t\t</thead>\n" ++
  "\t\t<tbody>\n" ++
  "\t\t"

/-- Text of the template `table` after the `end` of its `range` action. -/
def tableFoot : String :=
  "\n" ++
  "\t\t</tbody>\n" ++
  "\t</table>\n"

/-- The nodes between the `range` action of the template `table` and its `end`:
the body executed once for each product. -/
def rowNodes : List Node :=
  [Node.text "\n\t\t\t<tr class=\"border-t\">\n\t\t\t\t<td class=\"px-4 py-2\">\n\t\t\t\t\t<img src=\"",
   Node.action [Arg.field "Thumbnail"],
   Node.text "\" class=\"w-16 h-16 object-contain\" alt=\"",
   Node.action [Arg.field "Title"],
   Node.text "\">\n\t\t\t\t</td>\n\t\t\t\t<td class=\"px-4 py-2 font-semibold\">",
   Node.action [Arg.field "Title"],
   Node.text "</td>\n\t\t\t\t<td class=\"px-4 py-2\">",
   Node.action [Arg.field "Category"],
   Node.text "</td>\n\t\t\t\t<td class=\"px-4 py-2\">$",
   Node.action [Arg.ident "printf", Arg.str "%.2f", Arg.field "Price"],
   Node.text "</td>\n\t\t\t\t<td class=\"px-4 py-2 text-sm\">",
   Node.action [Arg.field "Description"],
   Node.text "</td>\n\t\t\t</tr>\n\t\t"]

/-- The parse tree of the template `table`. -/
def tableTree : Tree :=
  ⟨"table", [Node.text tableHead, Node.range [Arg.dot] rowNodes, Node.text tableFoot]⟩

/-- The parse tree of the template `main`. -/
def mainTree : Tree :=
  ⟨"main", [Node.text shellPre, Node.template "table" [Arg.dot], Node.text shellPost]⟩

/-- The value of `mainSetup`: both handles are templates called `table`; the
one stored in `tmpl` lives in the name space that also holds `main`. -/
def serverAfterMain : Server :=
  ⟨⟨"table", some tableTree, [("main", mainTree), ("table", tableTree)]⟩,
   ⟨"table", some tableTree, [("table", tableTree)]⟩⟩

/-! ## Renderings -/

/-- The bytes one execution of the `range` body writes for the product `p`
(the body invokes no template, so the callee passed to `walkList` is immaterial). -/
def renderRow (p : Product) : String :=
  (walkList (execTemplate [] 0) (Value.product p) rowNodes ResponseWriter.new).1.body

/-- The closed form of a row: the fixed text of the `range` body with the
fields of the product in its six actions. -/
def rowText (p : Product) : String :=
  "\n\t\t\t<tr class=\"border-t\">\n\t\t\t\t<td class=\"px-4 py-2\">\n\t\t\t\t\t<img src=\"" ++
  p.Thumbnail ++
  "\" class=\"w-16 h-16 object-contain\" alt=\"" ++
  p.Title ++
  "\">\n\t\t\t\t</td>\n\t\t\t\t<td class=\"px-4 py-2 font-semibold\">" ++
  p.Title ++
  "</td>\n\t\t\t\t<td class=\"px-4 py-2\">" ++
  p.Category ++
  "</td>\n\t\t\t\t<td class=\"px-4 py-2\">$" ++
  fmtFloatF 2 p.Price ++
  "</td>\n\t\t\t\t<td class=\"px-4 py-2 text-sm\">" ++
  p.Description ++
  "</td>\n\t\t\t</tr>\n\t\t"

/-- The fragment: the bytes `tableTmpl.ExecuteTemplate(w, "table", products)`
writes to a fresh response (the success path of `/products-table`). -/
def renderFragment (srv : Server) (ps : List Product) : String :=
  (srv.tableTmpl.ExecuteTemplate ResponseWriter.new "table" (Value.products ps)).1.body

/-- The bytes `tmpl.Execute(w, products)` writes to a fresh response (the
success path of `/`). -/
def renderRoot (srv : Server) (ps : List Product) : String :=
  (srv.tmpl.Execute ResponseWriter.new (Value.products ps)).1.body

/-- The document template: the bytes written by executing the template `main`
of the name space of `tmpl`, that is the page shell around the table. -/
def renderMain (srv : Server) (ps : List Product) : String :=
  (srv.tmpl.ExecuteTemplate ResponseWriter.new "main" (Value.products ps)).1.body

/-- Concatenation of a list of byte strings, in order. -/
def concatAll : List String → String
  | [] => ""
  | s :: rest => s ++ concatAll rest

/-- The opening tag of a body row. -/
def rowMarker : String := "<tr class=\"border-t\">"

/-- Number of positions of `s` at which `pat` occurs. -/
def countOcc (pat : List Char) : List Char → Nat
  | [] => 0
  | c :: s => (if pat.isPrefixOf (c :: s) then 1 else 0) + countOcc pat s

/-- Number of opening tags of body rows in a text. -/
def countRows (s : String) : Nat := countOcc rowMarker.data s.data

/-- Substring relation on byte strings. -/
def Contains (s sub : String) : Prop := sub.data <:+: s.data

instance Contains.decidable (s sub : String) : Decidable (Contains s sub) :=
  inferInstanceAs (Decidable (sub.data <:+: s.data))

/-! ## Escaping, as the specification asks for it -/

/-- No string field of the product holds the character that opens a tag. -/
def tagFree (p : Product) : Bool :=
  !(p.Title.data.contains '<') && !(p.Category.data.contains '<') &&
  !(p.Thumbnail.data.contains '<') && !(p.Description.data.contains '<')

/-- The product of the end-to-end scenario. -/
def penProduct : Product :=
  { Title := "Pen", Category := "Stationery", Price := .finite false 3 (-1),
    Thumbnail := "http://x/p.png", Description := "Blue pen" }

/-- A product whose description closes its cell and row and opens another row. -/
def injectingProduct : Product :=
  { Title := "Pen", Category := "Stationery", Price := .finite false 3 (-1),
    Thumbnail := "http://x/p.png",
    Description := "</td></tr><tr class=\"border-t\"><td>injected" }

/-! ## Auxiliary notions for counting occurrences -/

/-- The pattern differs from the text at a position that both have. -/
def clash : List Char → List Char → Bool
  | a :: p, b :: s => a != b || clash p s
  | _, _ => false

/-- At every position of the text, whether the pattern occurs there is decided
by the text alone, whatever follows it: the pattern either occurs within the
text or differs from it. -/
def settled (pat : List Char) : List Char → Bool
  | [] => true
  | c :: s => (pat.isPrefixOf (c :: s) || clash pat (c :: s)) && settled pat s


/-! ## The parser on the source texts -/

set_option maxRecDepth 100000 in
/-- Parsing the text of `tableTmpl` defines the one template `table`. -/
theorem parse_tableTmplText :
    parseText "table" tableTmplText = some [("table", tableTree)] := by
  rfl

set_option maxRecDepth 100000 in
/-- Parsing the text of `tmpl` defines the one template `main`. -/
theorem parse_tmplText : parseText "main" tmplText = some [("main", mainTree)] := by
  rfl

set_option maxRecDepth 100000 in
/-- The text of `tmpl` is the shell around the one action it contains. -/
theorem tmplText_split :
    tmplText = shellPre ++ "\x7b\x7btemplate \"table\" .\x7d\x7d" ++ shellPost := by
  rfl

set_option maxRecDepth 100000 in
/-- The set-up of `main` does not panic, and leaves `serverAfterMain`. -/
theorem mainSetup_eq : mainSetup = some serverAfterMain := by
  rfl

/-! ## Execution lemmas -/

/-- Two writes are one write of the concatenation. -/
theorem Write_Write (w : ResponseWriter) (a b : String) :
    (w.Write a).Write b = w.Write (a ++ b) := by
  cases w with
  | mk st body =>
    cases st <;> simp [ResponseWriter.Write, ResponseWriter.WriteHeader, String.append_assoc]

/-- A write to a fresh response yields status 200 and the bytes as body. -/
theorem new_Write (a : String) : ResponseWriter.new.Write a = ⟨some 200, a⟩ := by
  simp [ResponseWriter.Write, ResponseWriter.WriteHeader, ResponseWriter.new]

/-- The verb of the price cell. -/
theorem sprintf_f2 (f : Float64) :
    Sprintf "%.2f" [FmtArg.float64 f] = some (fmtFloatF 2 f) := by
  simp [Sprintf, doPrintf, readNat, String.length, Char.isDigit]

/-- Executing the `range` body on a product writes its row and cannot fail. -/
theorem walk_row (call : String → Except String Value → ResponseWriter → ExecResult) (p : Product)
    (w : ResponseWriter) :
    walkList call (Value.product p) rowNodes w = (w.Write (rowText p), none) := by
  simp [walkList, walk, rowNodes, evalPipeline, evalField, printValue, evalArgs, evalArg,
    callPrintf, toFmtArg, toFmtArgs, sprintf_f2, Write_Write, rowText, String.append_assoc]

/-- The row of a product in closed form. -/
theorem renderRow_eq_rowText (p : Product) : renderRow p = rowText p := by
  simp [renderRow, walk_row, new_Write]

/-- The loop of a `range` action whose body writes `row p` for each product:
one row per product, in order. -/
theorem range_rows (call : String → Except String Value → ResponseWriter → ExecResult)
    (body : List Node) (row : Product → String)
    (hrow : ∀ p w, walkList call (Value.product p) body w = (w.Write (row p), none))
    (ps : List Product) (w : ResponseWriter) (s : String) :
    ps.foldl (fun (r : ExecResult) p =>
        match r with
        | (w1, none) => walkList call (Value.product p) body w1
        | (w1, some e) => (w1, some e)) (w.Write s, none)
      = (w.Write (s ++ concatAll (ps.map row)), none) := by
  induction ps generalizing s with
  | nil => simp [concatAll]
  | cons p ps ih =>
    rw [List.foldl_cons]
    dsimp only
    rw [hrow, Write_Write, ih, List.map_cons, concatAll, String.append_assoc]

/-- Executing a text, a `range` over the data and a text: head, rows, foot. -/
theorem walk_head_range_foot (call : String → Except String Value → ResponseWriter → ExecResult)
    (body : List Node) (row : Product → String)
    (hrow : ∀ p w, walkList call (Value.product p) body w = (w.Write (row p), none))
    (head foot : String) (ps : List Product) (w : ResponseWriter) :
    walkList call (Value.products ps)
        [Node.text head, Node.range [Arg.dot] body, Node.text foot] w
      = (w.Write (head ++ concatAll (ps.map row) ++ foot), none) := by
  simp only [walkList, walk, evalPipeline, range_rows call body row hrow, Write_Write]

/-- Executing the tree of `table` writes the head, the rows and the foot. -/
theorem walk_tableTree (call : String → Except String Value → ResponseWriter → ExecResult)
    (ps : List Product) (w : ResponseWriter) :
    walkList call (Value.products ps) tableTree.Root w
      = (w.Write (tableHead ++ concatAll (ps.map rowText) ++ tableFoot), none) :=
  walk_head_range_foot call rowNodes rowText (walk_row call) tableHead tableFoot ps w

/-- Executing the template `table` in a name space that binds it to `tableTree`. -/
theorem execTemplate_table (common : List (String × Tree)) (depth : Nat)
    (h : lookupTree "table" common = some tableTree) (ps : List Product) (w : ResponseWriter) :
    execTemplate common (depth + 1) "table" (Except.ok (Value.products ps)) w
      = (w.Write (tableHead ++ concatAll (ps.map rowText) ++ tableFoot), none) := by
  simp only [execTemplate, h, walk_tableTree]

/-- The fragment handle after set-up writes the table. -/
theorem tableTmpl_ExecuteTemplate (ps : List Product) (w : ResponseWriter) :
    serverAfterMain.tableTmpl.ExecuteTemplate w "table" (Value.products ps)
      = (w.Write (tableHead ++ concatAll (ps.map rowText) ++ tableFoot), none) := by
  simp [Template.ExecuteTemplate, Template.Lookup, serverAfterMain, lookupTree,
    Template.Execute, walk_tableTree]

/-- The handle stored in `tmpl` after set-up writes the table as well. -/
theorem tmpl_Execute (ps : List Product) (w : ResponseWriter) :
    serverAfterMain.tmpl.Execute w (Value.products ps)
      = (w.Write (tableHead ++ concatAll (ps.map rowText) ++ tableFoot), none) := by
  simp [serverAfterMain, Template.Execute, walk_tableTree]

/-- Executing a text, an invocation of `table` on the data and a text. -/
theorem walk_pre_template_post (call : String → Except String Value → ResponseWriter → ExecResult)
    (page : List Product → String)
    (hcall : ∀ ps w,
      call "table" (Except.ok (Value.products ps)) w = (w.Write (page ps), none))
    (pre post : String) (ps : List Product) (w : ResponseWriter) :
    walkList call (Value.products ps)
        [Node.text pre, Node.template "table" [Arg.dot], Node.text post] w
      = (w.Write (pre ++ page ps ++ post), none) := by
  simp only [walkList, walk, evalPipeline, hcall, Write_Write]

/-- The template `main` of the name space of `tmpl` writes the shell around the table. -/
theorem tmpl_ExecuteTemplate_main (ps : List Product) (w : ResponseWriter) :
    serverAfterMain.tmpl.ExecuteTemplate w "main" (Value.products ps)
      = (w.Write (shellPre ++ (tableHead ++ concatAll (ps.map rowText) ++ tableFoot)
          ++ shellPost), none) := by
  have h : lookupTree "table" [("main", mainTree), ("table", tableTree)] = some tableTree := by
    simp [lookupTree]
  have hm : serverAfterMain.tmpl.Lookup "main"
      = some ⟨"main", some mainTree, [("main", mainTree), ("table", tableTree)]⟩ := by
    simp [Template.Lookup, serverAfterMain, lookupTree]
  rw [Template.ExecuteTemplate, hm]
  exact walk_pre_template_post _ _
    (fun ps w => execTemplate_table _ 99999 h ps w) shellPre shellPost ps w

/-- The error message of the handlers. -/
theorem sprintf_error (e : GoError) :
    Sprintf "Error fetching products: %v" [FmtArg.error e]
      = some ("Error fetching products: " ++ e.msg) := by
  simp [Sprintf, doPrintf, String.length]
  rfl

/-- The fragment after set-up, in closed form. -/
theorem renderFragment_eq (ps : List Product) :
    renderFragment serverAfterMain ps
      = tableHead ++ concatAll (ps.map renderRow) ++ tableFoot := by
  have h : (fun p => renderRow p) = rowText := funext renderRow_eq_rowText
  simp only [renderFragment, tableTmpl_ExecuteTemplate, new_Write]
  rw [← h]

/-- The bytes that `/` serves after set-up are the fragment. -/
theorem renderRoot_eq (ps : List Product) :
    renderRoot serverAfterMain ps = renderFragment serverAfterMain ps := by
  simp only [renderRoot, renderFragment, tableTmpl_ExecuteTemplate, tmpl_Execute]

/-- The template `main` after set-up renders the shell around the fragment. -/
theorem renderMain_eq (ps : List Product) :
    renderMain serverAfterMain ps
      = shellPre ++ renderFragment serverAfterMain ps ++ shellPost := by
  simp only [renderMain, renderFragment, tableTmpl_ExecuteTemplate, tmpl_ExecuteTemplate_main,
    new_Write]

set_option maxRecDepth 100000 in
/-- A text between two non-empty texts is longer than the text alone. -/
theorem shell_ne (f : String) : f ≠ shellPre ++ f ++ shellPost := by
  intro h
  have hl := congrArg String.length h
  simp only [String.length_append] at hl
  have h1 : 0 < shellPre.length := by decide
  omega

/-! ## The claims -/

/-- C2: on either route, when `fetchProducts` returns an error the response
is status 500 with the body `Error fetching products: ` followed by the
message of the error and nothing else (no template output), whatever slice
came with the error. -/
theorem fetch_error_gives_500 (srv : Server) (ps : List Product) (e : GoError) :
    handleRoot srv (ps, some e) ResponseWriter.new
      = ⟨some 500, "Error fetching products: " ++ e.msg⟩ ∧
    handleProductsTable srv (ps, some e) ResponseWriter.new
      = ⟨some 500, "Error fetching products: " ++ e.msg⟩ ∧
    (handleRoot srv (ps, some e) ResponseWriter.new).code = 500 ∧
    (handleProductsTable srv (ps, some e) ResponseWriter.new).code = 500 ∧
    "Error fetching products: ".data <+: (handleRoot srv (ps, some e) ResponseWriter.new).body.data ∧
    "Error fetching products: ".data
      <+: (handleProductsTable srv (ps, some e) ResponseWriter.new).body.data := by
  have h1 : handleRoot srv (ps, some e) ResponseWriter.new
      = ⟨some 500, "Error fetching products: " ++ e.msg⟩ := by
    simp [handleRoot, Fprintf, sprintf_error, ResponseWriter.Write, ResponseWriter.WriteHeader,
      ResponseWriter.new]
  have h2 : handleProductsTable srv (ps, some e) ResponseWriter.new
      = ⟨some 500, "Error fetching products: " ++ e.msg⟩ := by
    simp [handleProductsTable, Fprintf, sprintf_error, ResponseWriter.Write,
      ResponseWriter.WriteHeader, ResponseWriter.new]
  rw [h1, h2]
  refine ⟨rfl, rfl, rfl, rfl, ?_, ?_⟩ <;>
    simp only [String.data_append] <;> exact List.prefix_append _ _

/-- C3: after the set-up of `main`, for every product sequence the bytes that
`tmpl.Execute` writes contain the bytes of the fragment as a contiguous
substring; so do the bytes of the template `main` of the same name space. -/
theorem page_contains_fragment :
    ∃ srv, mainSetup = some srv ∧ ∀ ps : List Product,
      Contains (renderRoot srv ps) (renderFragment srv ps) ∧
      (handleRoot srv (ps, none) ResponseWriter.new).body = renderRoot srv ps ∧
      Contains (renderMain srv ps) (renderFragment srv ps) := by
  refine ⟨serverAfterMain, mainSetup_eq, fun ps => ⟨?_, rfl, ?_⟩⟩
  · rw [renderRoot_eq]
    exact List.infix_refl _
  · rw [renderMain_eq]
    exact ⟨shellPre.data, shellPost.data, by simp [String.data_append]⟩

set_option maxRecDepth 100000 in
/-- C6: rendering the empty product sequence does not fail and yields the
header-only table: the fragment for the empty sequence is the fixed text of the
table template with the five header cells and an empty body, it contains no
body row, and the response of `/` for the empty sequence is status 200 with a
body that contains this table and no body row. -/
theorem empty_sequence_header_only :
    ∃ srv, mainSetup = some srv ∧
      srv.tableTmpl.ExecuteTemplate ResponseWriter.new "table" (Value.products [])
        = (⟨some 200,
            "\n" ++
            "\t<table class=\"table-auto w-full shadow rounded bg-white\">\n" ++
            "\t\t<thead>\n" ++
            "\t\t\t<tr>\n" ++
            "\t\t\t\t<th class=\"px-4 py-2\">Image</th>\n" ++
            "\t\t\t\t<th class=\"px-4 py-2\">Title</th>\n" ++
            "\t\t\t\t<th class=\"px-4 py-2\">Category</th>\n" ++
            "\t\t\t\t<th class=\"px-4 py-2\">Price</th>\n" ++
            "\t\t\t\t<th class=\"px-4 py-2\">Description</th>\n" ++
            "\t\t\t</tr>\n" ++
            "\t\t</thead>\n" ++
            "\t\t<tbody>\n" ++
            "\t\t" ++ "\n" ++
            "\t\t</tbody>\n" ++
            "\t</table>\n"⟩, none) ∧
      countRows (renderFragment srv []) = 0 ∧
      (srv.tmpl.Execute ResponseWriter.new (Value.products [])).2 = none ∧
      (handleRoot srv ([], none) ResponseWriter.new).code = 200 ∧
      Contains (handleRoot srv ([], none) ResponseWriter.new).body (renderFragment srv []) ∧
      countRows (handleRoot srv ([], none) ResponseWriter.new).body = 0 ∧
      (srv.tmpl.ExecuteTemplate ResponseWriter.new "main" (Value.products [])).2 = none ∧
      Contains (renderMain srv []) (renderFragment srv []) ∧
      countRows (renderMain srv []) = 0 := by
  have hf : renderFragment serverAfterMain [] = tableHead ++ tableFoot := by
    rw [renderFragment_eq]; rfl
  have hb : (handleRoot serverAfterMain ([], none) ResponseWriter.new).body
      = tableHead ++ tableFoot := by
    rw [← hf, ← renderRoot_eq]; rfl
  have hc : (handleRoot serverAfterMain ([], none) ResponseWriter.new).code = 200 := by
    simp only [handleRoot, tmpl_Execute, new_Write]; rfl
  have hm : renderMain serverAfterMain [] = shellPre ++ (tableHead ++ tableFoot) ++ shellPost := by
    rw [renderMain_eq, hf]
  refine ⟨serverAfterMain, mainSetup_eq, ?_, ?_, ?_, hc, ?_, ?_, ?_, ?_, ?_⟩
  · rw [tableTmpl_ExecuteTemplate, new_Write]; rfl
  · rw [hf]; decide
  · rw [tmpl_Execute]
  · rw [hb, hf]; exact List.infix_refl _
  · rw [hb]; decide
  · rw [tmpl_ExecuteTemplate_main]
  · rw [hm, hf]; exact ⟨shellPre.data, shellPost.data, by simp [String.data_append]⟩
  · rw [hm]; decide

set_option maxRecDepth 100000 in
/-- C7: for the one product Pen / Stationery / 1.5 / http://x/p.png / Blue pen
the response of `/products-table` is status 200 and its body is the table
with exactly one body row, holding the image with that `src` and the cells
Pen, Stationery, $1.50 and Blue pen in this order. -/
theorem pen_scenario :
    ∃ srv, mainSetup = some srv ∧
      handleProductsTable srv ([penProduct], none) ResponseWriter.new
        = ⟨some 200,
            tableHead ++
            ("\n\t\t\t<tr class=\"border-t\">\n" ++
             "\t\t\t\t<td class=\"px-4 py-2\">\n" ++
             "\t\t\t\t\t<img src=\"http://x/p.png\" class=\"w-16 h-16 object-contain\" alt=\"Pen\">\n" ++
             "\t\t\t\t</td>\n" ++
             "\t\t\t\t<td class=\"px-4 py-2 font-semibold\">Pen</td>\n" ++
             "\t\t\t\t<td class=\"px-4 py-2\">Stationery</td>\n" ++
             "\t\t\t\t<td class=\"px-4 py-2\">$1.50</td>\n" ++
             "\t\t\t\t<td class=\"px-4 py-2 text-sm\">Blue pen</td>\n" ++
             "\t\t\t</tr>\n" ++
             "\t\t") ++
            tableFoot⟩ ∧
      (handleProductsTable srv ([penProduct], none) ResponseWriter.new).code = 200 ∧
      countRows (handleProductsTable srv ([penProduct], none) ResponseWriter.new).body = 1 := by
  have h : handleProductsTable serverAfterMain ([penProduct], none) ResponseWriter.new
      = ⟨some 200, tableHead ++ concatAll ([penProduct].map rowText) ++ tableFoot⟩ := by
    simp only [handleProductsTable, tableTmpl_ExecuteTemplate, new_Write]
  refine ⟨serverAfterMain, mainSetup_eq, ?_, ?_, ?_⟩
  · rw [h]; decide
  · rw [h]; rfl
  · rw [h]; decide

set_option maxRecDepth 100000 in
/-- C10 (the code at its failing input): after the set-up of `main` the handle
stored in `tmpl` is the template called `table`, so for every product sequence
`tmpl.Execute` writes the fragment alone, which differs from the text of `tmpl`
before the action, the fragment, and the text after it; the shell is only
written by the template `main` of that name space. -/
theorem root_render_lacks_shell :
    ∃ srv, mainSetup = some srv ∧ srv.tmpl.name = "table" ∧
      tmplText = shellPre ++ "\x7b\x7btemplate \"table\" .\x7d\x7d" ++ shellPost ∧
      ∀ ps : List Product,
        renderRoot srv ps = renderFragment srv ps ∧
        renderRoot srv ps ≠ shellPre ++ renderFragment srv ps ++ shellPost ∧
        renderMain srv ps = shellPre ++ renderFragment srv ps ++ shellPost := by
  refine ⟨serverAfterMain, mainSetup_eq, rfl, tmplText_split, fun ps => ⟨renderRoot_eq ps, ?_,
    renderMain_eq ps⟩⟩
  rw [renderRoot_eq]
  exact shell_ne _

set_option maxRecDepth 100000 in
/-- C5 (the code at its failing input): when `fetchProducts` returns a nil
error both handlers answer with status 200 and the fragment as body; the body
of `/` is therefore not the document rendered by the template `main`, and for
the empty sequence it lacks the doctype that the document starts with. -/
theorem root_handler_serves_fragment :
    ∃ srv, mainSetup = some srv ∧
      (∀ ps : List Product,
        handleRoot srv (ps, none) ResponseWriter.new = ⟨some 200, renderFragment srv ps⟩ ∧
        handleProductsTable srv (ps, none) ResponseWriter.new
          = ⟨some 200, renderFragment srv ps⟩ ∧
        (handleRoot srv (ps, none) ResponseWriter.new).body ≠ renderMain srv ps) ∧
      ¬ Contains (handleRoot srv ([], none) ResponseWriter.new).body "<!DOCTYPE html>" ∧
      Contains (renderMain srv []) "<!DOCTYPE html>" := by
  have h1 : ∀ ps, handleRoot serverAfterMain (ps, none) ResponseWriter.new
      = ⟨some 200, renderFragment serverAfterMain ps⟩ := by
    intro ps
    simp only [handleRoot, renderFragment, tmpl_Execute, tableTmpl_ExecuteTemplate, new_Write]
  have h2 : ∀ ps, handleProductsTable serverAfterMain (ps, none) ResponseWriter.new
      = ⟨some 200, renderFragment serverAfterMain ps⟩ := by
    intro ps
    simp only [handleProductsTable, renderFragment, tableTmpl_ExecuteTemplate, new_Write]
  have hf : renderFragment serverAfterMain [] = tableHead ++ tableFoot := by
    rw [renderFragment_eq]; rfl
  refine ⟨serverAfterMain, mainSetup_eq, fun ps => ⟨h1 ps, h2 ps, ?_⟩, ?_, ?_⟩
  · rw [h1, renderMain_eq]
    exact shell_ne _
  · rw [h1, hf]; decide
  · rw [renderMain_eq, hf]; decide



/-- Every decimal digit character is a digit. -/
theorem digitChar_isDigit (d : Nat) (h : d < 10) : (Nat.digitChar d).isDigit = true := by
  interval_cases d <;> decide

/-- The digit loop of `Nat.repr` only produces digits. -/
theorem toDigitsCore_isDigit (fuel : Nat) :
    ∀ (n : Nat) (ds : List Char), (∀ c ∈ ds, c.isDigit = true) →
      ∀ c ∈ Nat.toDigitsCore 10 fuel n ds, c.isDigit = true := by
  induction fuel with
  | zero => intro n ds h c hc; simpa [Nat.toDigitsCore] using h c (by simpa [Nat.toDigitsCore] using hc)
  | succ fuel ih =>
    intro n ds h c hc
    have hd : (Nat.digitChar (n % 10)).isDigit = true :=
      digitChar_isDigit _ (Nat.mod_lt _ (by decide))
    have hds : ∀ c ∈ Nat.digitChar (n % 10) :: ds, c.isDigit = true := by
      intro c hc
      rcases List.mem_cons.mp hc with h1 | h1
      · rw [h1]; exact hd
      · exact h c h1
    simp only [Nat.toDigitsCore] at hc
    split_ifs at hc with h0
    · exact hds c hc
    · exact ih _ _ hds c hc

/-- The decimal representation of a natural number consists of digits. -/
theorem repr_isDigit (n : Nat) : ∀ c ∈ (Nat.repr n).data, c.isDigit = true := by
  intro c hc
  exact toDigitsCore_isDigit _ n [] (by simp) c (by simpa [Nat.repr, Nat.toDigits, List.asString] using hc)

/-- The text of `%.2f` on a finite value. -/
theorem fmtFloatF_two (neg : Bool) (mant : Nat) (exp : Int) :
    fmtFloatF 2 (Float64.finite neg mant exp)
      = (if neg then "-" else "") ++ Nat.repr (scaledRound mant exp 2 / 100) ++ "." ++
        String.mk [Nat.digitChar (scaledRound mant exp 2 / 10 % 10),
          Nat.digitChar (scaledRound mant exp 2 % 10)] := by
  simp [fmtFloatF, fracDigits, String.append_assoc]

/-- An occurrence within a text stays an occurrence when the text is extended. -/
theorem isPrefixOf_append (pat s t : List Char) (h : pat.isPrefixOf s = true) :
    pat.isPrefixOf (s ++ t) = true := by
  rw [List.isPrefixOf_iff_prefix] at h ⊢
  exact h.trans (List.prefix_append s t)

/-- A clash within a text excludes an occurrence however the text is extended. -/
theorem clash_append (pat s t : List Char) (h : clash pat s = true) :
    pat.isPrefixOf (s ++ t) = false := by
  induction pat generalizing s with
  | nil => cases s <;> simp [clash] at h
  | cons a p ih =>
    cases s with
    | nil => simp [clash] at h
    | cons b s =>
      simp only [clash, Bool.or_eq_true, bne_iff_ne, ne_eq] at h
      simp only [List.cons_append, List.isPrefixOf, Bool.and_eq_false_imp, beq_iff_eq]
      intro hab
      rcases h with h | h
      · exact absurd hab h
      · exact ih s h

/-- Unfolding of the count at a position. -/
theorem countOcc_cons (pat : List Char) (x : Char) (s : List Char) :
    countOcc pat (x :: s) = (if pat.isPrefixOf (x :: s) then 1 else 0) + countOcc pat s := rfl

/-- Occurrences in a settled text followed by any text: those of the text plus
those of what follows. -/
theorem countOcc_append_settled (pat c t : List Char) (h : settled pat c = true) :
    countOcc pat (c ++ t) = countOcc pat c + countOcc pat t := by
  induction c with
  | nil => simp [countOcc]
  | cons x c ih =>
    simp only [settled, Bool.and_eq_true, Bool.or_eq_true] at h
    have ih2 := ih h.2
    rw [List.cons_append, countOcc_cons, countOcc_cons, ih2]
    rcases h.1 with h1 | h1
    · have h2 := isPrefixOf_append pat (x :: c) t h1
      simp only [List.cons_append] at h2
      simp only [h1, h2, if_true]
      omega
    · have h2 := clash_append pat (x :: c) t h1
      have h3 := clash_append pat (x :: c) [] h1
      simp only [List.cons_append, List.append_nil] at h2 h3
      simp only [h2, h3]
      simp

/-- A text without the first character of the pattern holds no occurrence and
starts none. -/
theorem countOcc_append_clean (a : Char) (pat f t : List Char) (h : ∀ x ∈ f, x ≠ a) :
    countOcc (a :: pat) (f ++ t) = countOcc (a :: pat) t := by
  induction f with
  | nil => simp
  | cons x f ih =>
    have hx : x ≠ a := h x (List.mem_cons_self x f)
    have hne : (a == x) = false := by
      simp only [beq_eq_false_iff_ne, ne_eq]
      exact fun e => hx e.symm
    rw [List.cons_append, countOcc_cons]
    simp only [List.isPrefixOf, hne, Bool.false_and, Bool.false_eq_true, if_false, Nat.zero_add]
    exact ih (fun y hy => h y (List.mem_cons_of_mem x hy))

/-- The text of a price contains no tag opener. -/
theorem fmtFloatF_two_clean (f : Float64) : ∀ x ∈ (fmtFloatF 2 f).data, x ≠ '<' := by
  have hdig : ∀ x : Char, x.isDigit = true → x ≠ '<' := by
    intro x hx e
    rw [e] at hx
    exact absurd hx (by decide)
  cases f with
  | nan => decide
  | inf neg => cases neg <;> decide
  | finite neg mant exp =>
    rw [fmtFloatF_two]
    intro x hx
    simp only [String.data_append, List.mem_append, List.mem_cons, List.mem_singleton] at hx
    rcases hx with ((hx | hx) | hx) | hx
    · cases neg
      · simp at hx
      · simp at hx
        rw [hx]; decide
    · exact hdig x (repr_isDigit _ x hx)
    · have : x = '.' := by simpa using hx
      rw [this]; decide
    · rcases hx with hx | hx | hx
      · rw [hx]; exact hdig _ (digitChar_isDigit _ (Nat.mod_lt _ (by decide)))
      · rw [hx]; exact hdig _ (digitChar_isDigit _ (Nat.mod_lt _ (by decide)))
      · simp at hx

/-- A field without the tag opener, as a statement about its characters. -/
theorem clean_of_not_contains (s : String) (h : s.data.contains '<' = false) :
    ∀ x ∈ s.data, x ≠ '<' := by
  intro x hx e
  rw [e] at hx
  have : s.data.contains '<' = true := by simpa using hx
  rw [h] at this
  exact absurd this (by decide)

/-- A settled text followed by a clean field: the count passes over both. -/
theorem countOcc_chunk_field (a : Char) (pat c f t : List Char)
    (hc : settled (a :: pat) c = true) (hf : ∀ x ∈ f, x ≠ a) :
    countOcc (a :: pat) (c ++ (f ++ t)) = countOcc (a :: pat) c + countOcc (a :: pat) t := by
  rw [countOcc_append_settled _ _ _ hc, countOcc_append_clean a pat f t hf]

set_option maxRecDepth 100000 in
/-- The row of a product without tag openers adds exactly one opening tag of a
body row to whatever follows it. -/
theorem countOcc_rowText (p : Product) (h : tagFree p = true) (t : List Char) :
    countOcc rowMarker.data ((rowText p).data ++ t) = 1 + countOcc rowMarker.data t := by
  simp only [tagFree, Bool.and_eq_true, Bool.not_eq_true'] at h
  obtain ⟨⟨⟨hT, hC⟩, hTh⟩, hD⟩ := h
  have hm : rowMarker.data = '<' :: "tr class=\"border-t\">".data := rfl
  rw [hm]
  simp only [rowText, String.data_append, List.append_assoc]
  rw [countOcc_chunk_field _ _ _ _ _ (by decide) (clean_of_not_contains _ hTh),
    countOcc_chunk_field _ _ _ _ _ (by decide) (clean_of_not_contains _ hT),
    countOcc_chunk_field _ _ _ _ _ (by decide) (clean_of_not_contains _ hT),
    countOcc_chunk_field _ _ _ _ _ (by decide) (clean_of_not_contains _ hC),
    countOcc_chunk_field _ _ _ _ _ (by decide) (fmtFloatF_two_clean _),
    countOcc_chunk_field _ _ _ _ _ (by decide) (clean_of_not_contains _ hD),
    countOcc_append_settled _ _ _ (by decide)]
  have e0 : countOcc ('<' :: "tr class=\"border-t\">".data)
      "\n\t\t\t<tr class=\"border-t\">\n\t\t\t\t<td class=\"px-4 py-2\">\n\t\t\t\t\t<img src=\"".data = 1 := by
    decide
  have e1 : countOcc ('<' :: "tr class=\"border-t\">".data)
      "\" class=\"w-16 h-16 object-contain\" alt=\"".data = 0 := by decide
  have e2 : countOcc ('<' :: "tr class=\"border-t\">".data)
      "\">\n\t\t\t\t</td>\n\t\t\t\t<td class=\"px-4 py-2 font-semibold\">".data = 0 := by decide
  have e3 : countOcc ('<' :: "tr class=\"border-t\">".data)
      "</td>\n\t\t\t\t<td class=\"px-4 py-2\">".data = 0 := by decide
  have e4 : countOcc ('<' :: "tr class=\"border-t\">".data)
      "</td>\n\t\t\t\t<td class=\"px-4 py-2\">$".data = 0 := by decide
  have e5 : countOcc ('<' :: "tr class=\"border-t\">".data)
      "</td>\n\t\t\t\t<td class=\"px-4 py-2 text-sm\">".data = 0 := by decide
  have e6 : countOcc ('<' :: "tr class=\"border-t\">".data)
      "</td>\n\t\t\t</tr>\n\t\t".data = 0 := by decide
  rw [e0, e1, e2, e3, e4, e5, e6]
  simp only [Nat.zero_add]

/-- The rows of products without tag openers add one opening tag each. -/
theorem countOcc_rows (ps : List Product) (h : ∀ p ∈ ps, tagFree p = true) (t : List Char) :
    countOcc rowMarker.data ((concatAll (ps.map rowText)).data ++ t)
      = ps.length + countOcc rowMarker.data t := by
  induction ps with
  | nil => simp [concatAll]
  | cons p ps ih =>
    simp only [List.map_cons, concatAll, String.data_append, List.append_assoc, List.length_cons]
    rw [countOcc_rowText p (h p (List.mem_cons_self p ps)),
      ih (fun q hq => h q (List.mem_cons_of_mem p hq))]
    omega

set_option maxRecDepth 100000 in
/-- The table head followed by the rows of products without tag openers holds
one opening tag of a body row per product. -/
theorem countRows_head_rows (ps : List Product) (h : ∀ p ∈ ps, tagFree p = true) :
    countRows (tableHead ++ concatAll (ps.map rowText)) = ps.length := by
  rw [countRows]
  simp only [String.data_append]
  have e : (concatAll (ps.map rowText)).data = (concatAll (ps.map rowText)).data ++ [] := by
    simp
  rw [e, countOcc_append_settled _ _ _ (by decide), countOcc_rows ps h]
  have e0 : countOcc rowMarker.data tableHead.data = 0 := by decide
  rw [e0]
  simp [countOcc]

set_option maxRecDepth 100000 in
/-- The rows of products without tag openers followed by the table foot hold
one opening tag of a body row per product. -/
theorem countRows_rows_foot (ps : List Product) (h : ∀ p ∈ ps, tagFree p = true) :
    countRows (concatAll (ps.map rowText) ++ tableFoot) = ps.length := by
  rw [countRows]
  simp only [String.data_append]
  rw [countOcc_rows ps h]
  have e1 : countOcc rowMarker.data tableFoot.data = 0 := by decide
  rw [e1]
  rfl

/-- The row of a product without tag openers holds one opening tag of a body row. -/
theorem countRows_rowText (p : Product) (h : tagFree p = true) : countRows (rowText p) = 1 := by
  have e := countOcc_rowText p h []
  rw [List.append_nil] at e
  rw [countRows, e]
  rfl

set_option maxRecDepth 100000 in
/-- The fragment of products without tag openers holds one opening tag of a
body row per product. -/
theorem countRows_fragment (ps : List Product) (h : ∀ p ∈ ps, tagFree p = true) :
    countRows (renderFragment serverAfterMain ps) = ps.length := by
  have hr : renderRow = rowText := funext renderRow_eq_rowText
  rw [renderFragment_eq, hr, countRows]
  simp only [String.data_append, List.append_assoc]
  rw [countOcc_append_settled _ _ _ (by decide), countOcc_rows ps h]
  have e0 : countOcc rowMarker.data tableHead.data = 0 := by decide
  have e1 : countOcc rowMarker.data tableFoot.data = 0 := by decide
  rw [e0, e1]
  omega

/-- Concatenation distributes over a split of the list. -/
theorem concatAll_append (xs ys : List String) :
    concatAll (xs ++ ys) = concatAll xs ++ concatAll ys := by
  induction xs with
  | nil => simp [concatAll]
  | cons x xs ih => simp [concatAll, ih, String.append_assoc]

/-- The fragment split at one product: what precedes its row, the row, and
what follows it. -/
theorem renderFragment_split (xs ys : List Product) (p : Product) :
    renderFragment serverAfterMain (xs ++ p :: ys)
      = (tableHead ++ concatAll (xs.map rowText)) ++ rowText p
        ++ (concatAll (ys.map rowText) ++ tableFoot) := by
  have hr : renderRow = rowText := funext renderRow_eq_rowText
  rw [renderFragment_eq, hr, List.map_append, concatAll_append, List.map_cons, concatAll]
  simp only [String.append_assoc]

set_option maxRecDepth 100000 in
/-- C1 (counterexample): for the two products `penProduct`, `injectingProduct`
the template `table` executes without error and the fragment holds three
opening tags of body rows, not two. -/
theorem row_count_counterexample :
    ∃ srv, mainSetup = some srv ∧
      srv.tableTmpl.ExecuteTemplate ResponseWriter.new "table"
          (Value.products [penProduct, injectingProduct])
        = (⟨some 200, renderFragment srv [penProduct, injectingProduct]⟩, none) ∧
      [penProduct, injectingProduct].length = 2 ∧
      countRows (renderFragment srv [penProduct, injectingProduct]) = 3 := by
  have h1 : renderFragment serverAfterMain [penProduct, injectingProduct]
      = tableHead ++ concatAll ([penProduct, injectingProduct].map rowText) ++ tableFoot := by
    rw [renderFragment_eq, funext renderRow_eq_rowText]
  refine ⟨serverAfterMain, mainSetup_eq, ?_, rfl, ?_⟩
  · rw [h1, tableTmpl_ExecuteTemplate, new_Write]
  · rw [h1]; decide

set_option maxRecDepth 100000 in
/-- C1 (as amended): after the set-up of `main`, executing the template `table`
on any product sequence succeeds and writes the table head, the row rendered
from each product in input order, and the table foot; head and foot hold no
opening tag of a body row, and the empty sequence gives none. When no string
field of the products holds the character that opens a tag, the fragment holds
exactly one opening tag of a body row per product, and wherever the sequence
is split at a product, the fragment is the text before its row, its row and
the text after it, with as many opening tags before the row as products
precede it, one in the row, and as many after it as products follow. -/
theorem fragment_rows_of_tagFree :
    ∃ srv, mainSetup = some srv ∧
      srv.tableTmpl.Tree = some ⟨"table",
        [Node.text tableHead, Node.range [Arg.dot] rowNodes, Node.text tableFoot]⟩ ∧
      countRows tableHead = 0 ∧ countRows tableFoot = 0 ∧
      (∀ ps : List Product,
        srv.tableTmpl.ExecuteTemplate ResponseWriter.new "table" (Value.products ps)
          = (⟨some 200, tableHead ++ concatAll (ps.map renderRow) ++ tableFoot⟩, none)) ∧
      renderFragment srv [] = tableHead ++ tableFoot ∧
      countRows (renderFragment srv []) = 0 ∧
      (∀ ps : List Product, (∀ p ∈ ps, tagFree p = true) →
        countRows (renderFragment srv ps) = ps.length ∧
        ∀ (xs : List Product) (p : Product) (ys : List Product), ps = xs ++ p :: ys →
          ∃ before after : String,
            renderFragment srv ps = before ++ renderRow p ++ after ∧
            countRows before = xs.length ∧ countRows (renderRow p) = 1 ∧
            countRows after = ys.length) := by
  have hf : renderFragment serverAfterMain [] = tableHead ++ tableFoot := by
    rw [renderFragment_eq]; rfl
  refine ⟨serverAfterMain, mainSetup_eq, rfl, by decide, by decide, ?_, hf, ?_, ?_⟩
  · intro ps
    rw [tableTmpl_ExecuteTemplate, new_Write, funext renderRow_eq_rowText]
  · rw [hf]; decide
  · intro ps h
    refine ⟨countRows_fragment ps h, ?_⟩
    intro xs p ys hsplit
    have hxs : ∀ q ∈ xs, tagFree q = true := fun q hq =>
      h q (by rw [hsplit]; exact List.mem_append_left _ hq)
    have hys : ∀ q ∈ ys, tagFree q = true := fun q hq =>
      h q (by rw [hsplit]; exact List.mem_append_right _ (List.mem_cons_of_mem _ hq))
    have hp : tagFree p = true :=
      h p (by rw [hsplit]; exact List.mem_append_right _ (List.mem_cons_self _ _))
    refine ⟨tableHead ++ concatAll (xs.map rowText), concatAll (ys.map rowText) ++ tableFoot,
      ?_, countRows_head_rows xs hxs, ?_, countRows_rows_foot ys hys⟩
    · rw [hsplit, renderFragment_split, renderRow_eq_rowText]
    · rw [renderRow_eq_rowText]; exact countRows_rowText p hp

/-- C1 (witness): the amended statement at a sequence of two products. -/
theorem fragment_rows_of_tagFree_witness :
    (∀ p ∈ [penProduct, penProduct], tagFree p = true) ∧
    ∃ srv, mainSetup = some srv ∧
      countRows (renderFragment srv [penProduct, penProduct]) = 2 ∧
      ∃ before after : String,
        renderFragment srv [penProduct, penProduct] = before ++ renderRow penProduct ++ after ∧
        countRows before = 1 ∧ countRows (renderRow penProduct) = 1 ∧ countRows after = 0 := by
  obtain ⟨srv, hs, _, _, _, _, _, _, h⟩ := fragment_rows_of_tagFree
  have h2 := h [penProduct, penProduct] (by decide)
  exact ⟨by decide, srv, hs, h2.1, h2.2 [penProduct] penProduct [] rfl⟩

/-- Containment is transitive. -/
theorem Contains.trans {a b c : String} (h1 : Contains a b) (h2 : Contains b c) :
    Contains a c :=
  List.IsInfix.trans h2 h1

end GoHtmx
